import Mathlib

/-!
Shallow embedding of the fine-tuning/evaluation script `CelebA.py`.

The script loads CelebA, adapts a pretrained VGG-16-bn by replacing the
final classifier layer, and either trains (commented out in `main`) or
evaluates.  Tensor math, convolution and the optimizer update rule are
delegated to the external library; accordingly the forward pass, the
loss value and the optimizer step are parameters of the embedding
(functions `forward`, `criterion`, `optStep`), while the orchestration
code of the script (label/covariate extraction, the remap `(v+1)//2`,
the logging cadence, accumulation of predictions, accuracy and F1
computation, order of file writes) is translated literally.  Loss and
logit values are modelled as integers standing in for opaque scalars;
the accuracy ratio `correct / total` is modelled as a rational.
-/

namespace CelebA

/-- `experiment_name = 'vgg16_bn_8'` at the top of the script. -/
def experiment_name : String := "vgg16_bn_8"

/-- An input image tensor, abstracted to an opaque value list. -/
abbrev Image := List Int

/-- The 40-entry CelebA attribute vector attached to a sample. -/
abbrev Attrs := List Int

/-- One dataset sample: image plus attribute vector. -/
structure Sample where
  image : Image
  attrs : Attrs
deriving DecidableEq

/-- `label = labels[:, 2]` : the attractiveness attribute. -/
def attrLabel (s : Sample) : Int := s.attrs.getD 2 0

/-- `cov_attr = labels[:, 20]` : the gender attribute. -/
def attrCov (s : Sample) : Int := s.attrs.getD 20 0

/-- `(cov_attr + 1) // 2` with Python floor division. -/
def covRemap (v : Int) : Int := (v + 1).fdiv 2

/-- A network layer: the final classifier entries are `nn.Linear`
modules carrying their dimensions and weights; everything else
(convolutions, batch norms, activations) is opaque. -/
inductive Layer
  | linear (in_features out_features : Nat) (weight : List Int)
  | other (params : List Int)
deriving DecidableEq

/-- The parameter tensor owned by a layer. -/
def Layer.params : Layer → List Int
  | .linear _ _ w => w
  | .other p => p

/-- A freshly constructed `nn.Linear(in_features, out_features)`;
its weight tensor is the (abstracted, deterministic) fresh
initialization, distinct from any trained weights. -/
def freshLinear (inF outF : Nat) : Layer := .linear inF outF (List.replicate (inF * outF) 0)

/-- The VGG model: a `features` stack, a `classifier` stack (index 6 is
the final linear layer), and the train/eval mode flag toggled by
`model.train()` / `model.eval()`. -/
structure Model where
  features : List Layer
  classifier : List Layer
  training : Bool
deriving DecidableEq

/-- The full parameter set of the model (the state_dict contents):
mode flags are not parameters. -/
def Model.paramsOf (m : Model) : List (List Int) :=
  (m.features ++ m.classifier).map Layer.params

/-- `initialize_model`:
reads `num_ftrs = model.classifier[6].in_features`, then replaces
`model.classifier[6]` by a fresh `nn.Linear(num_ftrs, num_classes)`.
`model.to(device)` is a no-op in the embedding; criterion and
optimizer are parameters elsewhere.  Fails (as the Python would raise)
if `classifier[6]` is absent or not linear. -/
def initialize_model (model : Model) (num_classes : Nat) : Option Model :=
  match model.classifier.get? 6 with
  | some (.linear num_ftrs _ _) =>
      some { model with classifier := model.classifier.set 6 (freshLinear num_ftrs num_classes) }
  | _ => none

/-- Index of the maximum entry of a logit vector, first occurrence on
ties, as returned by `torch.max(outputs.data, 1)`. -/
def argmaxAux : List Int → Nat → Nat → Int → Nat
  | [], _, best, _ => best
  | x :: xs, i, best, bv =>
      if bv < x then argmaxAux xs (i + 1) i x else argmaxAux xs (i + 1) best bv

/-- `torch.max(outputs.data, 1)` index for one sample. -/
def argmax : List Int → Nat
  | [] => 0
  | x :: xs => argmaxAux xs 1 0 x

/-- True positives of the positive class 1 over paired label lists. -/
def countTP (t p : List Int) : Nat :=
  (t.zip p).countP (fun x => decide (x.1 = 1 ∧ x.2 = 1))

/-- False positives: predicted 1, true label not 1. -/
def countFP (t p : List Int) : Nat :=
  (t.zip p).countP (fun x => decide (x.1 ≠ 1 ∧ x.2 = 1))

/-- False negatives: true label 1, predicted not 1. -/
def countFN (t p : List Int) : Nat :=
  (t.zip p).countP (fun x => decide (x.1 = 1 ∧ x.2 ≠ 1))

/-- `sklearn.metrics.f1_score` with default binary averaging and
positive label 1: 2TP / (2TP + FP + FN), with the 0/0 convention 0. -/
def f1_score (t p : List Int) : ℚ :=
  let tp := countTP t p
  let fp := countFP t p
  let fn := countFN t p
  if 2 * tp + fp + fn = 0 then 0 else (2 * tp : ℚ) / ((2 * tp + fp + fn : Nat) : ℚ)

/-- Accumulator of the evaluation loop: `correct`, `total`, `y_true`,
`y_pred` exactly as in the script. -/
structure EvalState where
  correct : Nat
  total : Nat
  y_true : List Int
  y_pred : List Int
deriving DecidableEq

/-- One forward call through the model, recording the autograd state
and the mode flag it ran under. -/
structure FwdCall where
  gradEnabled : Bool
  modeTraining : Bool
deriving DecidableEq

/-- The body of the evaluation loop for one sample: extract label and
covariate (the remapped covariate is computed and then unused, as in
the source), forward pass, argmax prediction, accumulate stats. -/
def evalStep (forward : Model → Image → List Int) (m : Model) (gradEnabled : Bool)
    (st : EvalState × List FwdCall) (s : Sample) : EvalState × List FwdCall :=
  let label := attrLabel s
  let _cov_attr := covRemap (attrCov s)
  let outputs := forward m s.image
  let predicted := argmax outputs
  (⟨st.1.correct + (if label = (predicted : Int) then 1 else 0),
    st.1.total + 1,
    st.1.y_true ++ [label],
    st.1.y_pred ++ [(predicted : Int)]⟩,
   st.2 ++ [⟨gradEnabled, m.training⟩])

/-- The evaluation loop over the validation sequence. -/
def evalLoop (forward : Model → Image → List Int) (m : Model) (gradEnabled : Bool) :
    EvalState × List FwdCall → List Sample → EvalState × List FwdCall
  | st, [] => st
  | st, s :: ss => evalLoop forward m gradEnabled (evalStep forward m gradEnabled st s) ss

/-- A line of evaluation output, as printed by `evaluate`. -/
inductive OutLine
  | f1Line (v : ℚ)
  | accLine (v : ℚ)
deriving DecidableEq

/-- Result of `evaluate`: the model afterwards, the console lines, the
lines appended to the log file named after the experiment, the trace of
forward calls and the final accumulator. -/
structure EvalResult where
  model : Model
  console : List OutLine
  fileOut : List OutLine
  calls : List FwdCall
  state : EvalState
deriving DecidableEq

/-- `evaluate(val_loader, model)`:
`model.eval()` clears the training flag; the loop runs inside
`with torch.no_grad()` so every forward call has gradients disabled;
afterwards the script prints the F1 score and the accuracy to the
console, then opens the log file for append and prints the F1 line
again WITHOUT `file=f` (so it goes to the console, line 182 of the
source) and the accuracy line with `file=f`. -/
def evaluate (forward : Model → Image → List Int) (m0 : Model) (samples : List Sample) :
    EvalResult :=
  let m := { m0 with training := false }
  let r := evalLoop forward m false (⟨0, 0, [], []⟩, []) samples
  let st := r.1
  let f1v := f1_score st.y_true st.y_pred
  let accv : ℚ := (st.correct : ℚ) / (st.total : ℚ)
  { model := m
    console := [.f1Line f1v, .accLine accv, .f1Line f1v]
    fileOut := [.accLine accv]
    calls := r.2
    state := st }

/-- An observable event of the training loop: a progress line printed
to the console, the same line appended to the log file, the per-epoch
loss plot saved by `make_plots` (carrying the histories it plots), or
the checkpoint saved by `torch.save`. -/
inductive TrainEvent
  | progressConsole (epoch numEpochs step numSteps : Nat) (loss : Int)
  | progressFile (epoch numEpochs step numSteps : Nat) (loss : Int)
  | plotSaved (epoch : Nat) (step_hist : List Nat) (loss_hist : List Int)
  | ckptSaved (name : String)
deriving DecidableEq

/-- State threaded through one epoch of training: the model (mutated
in place by the optimizer), the per-epoch histories, and the event
trace accumulated across the whole run. -/
structure EpochState where
  model : Model
  loss_hist : List Int
  step_hist : List Nat
  events : List TrainEvent
deriving DecidableEq

/-- The body of the training loop for batch index `i`:
extract label and covariate (remapped covariate computed, unused),
forward pass, loss, optimizer step (`zero_grad`; `backward`; `step` —
abstracted as `optStep`, which may depend only on the current model,
the images and the target label), then on every step with
`(i+1) % 100 == 0` print the progress line to console and file and
record `(i+1, loss)` in the histories. -/
def trainBatch (forward : Model → Image → List Int) (criterion : List Int → Int → Int)
    (optStep : Model → Image → Int → Model) (numEpochs numSteps epoch : Nat)
    (st : EpochState) (i : Nat) (batch : Sample) : EpochState :=
  let label := attrLabel batch
  let _cov_attr := covRemap (attrCov batch)
  let outputs := forward st.model batch.image
  let loss := criterion outputs label
  let m := optStep st.model batch.image label
  if (i + 1) % 100 = 0 then
    { model := m
      loss_hist := st.loss_hist ++ [loss]
      step_hist := st.step_hist ++ [i + 1]
      events := st.events ++
        [.progressConsole (epoch + 1) numEpochs (i + 1) numSteps loss,
         .progressFile (epoch + 1) numEpochs (i + 1) numSteps loss] }
  else
    { st with model := m }

/-- `for i, (images, labels) in tqdm(enumerate(train_loader))`,
starting from batch index `i`. -/
def epochLoop (forward : Model → Image → List Int) (criterion : List Int → Int → Int)
    (optStep : Model → Image → Int → Model) (numEpochs numSteps epoch : Nat) :
    Nat → EpochState → List Sample → EpochState
  | _, st, [] => st
  | i, st, b :: bs =>
      epochLoop forward criterion optStep numEpochs numSteps epoch (i + 1)
        (trainBatch forward criterion optStep numEpochs numSteps epoch st i b) bs

/-- One full epoch: fresh (empty) histories, the batch loop from index
0, then `make_plots(step_hist, loss_hist, epoch)`. -/
def runEpoch (forward : Model → Image → List Int) (criterion : List Int → Int → Int)
    (optStep : Model → Image → Int → Model) (numEpochs epoch : Nat)
    (m : Model) (events : List TrainEvent) (batches : List Sample) : Model × List TrainEvent :=
  let st := epochLoop forward criterion optStep numEpochs batches.length epoch 0
      ⟨m, [], [], events⟩ batches
  (st.model, st.events ++ [.plotSaved epoch st.step_hist st.loss_hist])

/-- The epoch loop `for epoch in range(num_epochs)`. -/
def epochsLoop (forward : Model → Image → List Int) (criterion : List Int → Int → Int)
    (optStep : Model → Image → Int → Model) (numEpochs : Nat) (batches : List Sample) :
    Nat → Model → List TrainEvent → Model × List TrainEvent
  | 0, m, evs => (m, evs)
  | n + 1, m, evs =>
      let r := runEpoch forward criterion optStep numEpochs (numEpochs - (n + 1)) m evs batches
      epochsLoop forward criterion optStep numEpochs batches n r.1 r.2

/-- `train(train_loader, model, criterion, optimizer, num_epochs)`:
run every epoch, then `torch.save(model.state_dict(), experiment_name
+ '.ckpt')` once at the very end. -/
def train (forward : Model → Image → List Int) (criterion : List Int → Int → Int)
    (optStep : Model → Image → Int → Model) (m0 : Model) (batches : List Sample)
    (num_epochs : Nat) : Model × List TrainEvent :=
  let r := epochsLoop forward criterion optStep num_epochs batches num_epochs m0 []
  (r.1, r.2 ++ [.ckptSaved (experiment_name ++ ".ckpt")])

/-- A write to the filesystem performed by the script. -/
inductive FileWrite
  | appendTxt (name : String)
  | saveFig (name : String)
  | saveCkpt (name : String)
deriving DecidableEq

/-- The filesystem writes of a training event trace. -/
def trainWrites (evs : List TrainEvent) : List FileWrite :=
  evs.filterMap fun e =>
    match e with
    | .progressConsole _ _ _ _ _ => none
    | .progressFile _ _ _ _ _ => some (.appendTxt (experiment_name ++ ".txt"))
    | .plotSaved _ _ _ => some (.saveFig experiment_name)
    | .ckptSaved n => some (.saveCkpt n)

/-- The filesystem writes of an evaluation run: each line of `fileOut`
is one append to the experiment log. -/
def evalWrites (r : EvalResult) : List FileWrite :=
  r.fileOut.map fun _ => .appendTxt (experiment_name ++ ".txt")

/-- Result of `main`: the model actually passed to the evaluation
loop (after `initialize_model`), the evaluation result, and the
filesystem writes performed during the run. -/
structure MainResult where
  modelUsed : Model
  evalRes : EvalResult
  writes : List FileWrite
deriving DecidableEq

/-- `main()` as written in the source: hyperparameters fixed
(`num_classes = 2`), data loaded, `initialize_model` applied to a
freshly loaded pretrained backbone, the call to `train` commented out
(line 202), and only `evaluate(val_loader, model)` executed.  Fails
only where the Python would raise (no linear layer at
`classifier[6]`). -/
def main (forward : Model → Image → List Int) (vgg : Model) (valSamples : List Sample) :
    Option MainResult :=
  let num_classes := 2
  (initialize_model vgg num_classes).map fun m =>
    let r := evaluate forward m valSamples
    { modelUsed := m, evalRes := r, writes := evalWrites r }

/-- The prediction of the model on one sample: class index of the
maximum logit of the forward pass. -/
def predOf (forward : Model → Image → List Int) (m : Model) (s : Sample) : Int :=
  (argmax (forward m s.image) : Int)

/-- Count of samples whose true label equals the model's prediction. -/
def matchCount (forward : Model → Image → List Int) (m : Model) (samples : List Sample) : Nat :=
  samples.countP fun s => decide (attrLabel s = predOf forward m s)

/-- The model obtained by applying the optimizer step once per batch,
in batch order. -/
def optFold (optStep : Model → Image → Int → Model) : Model → List Sample → Model
  | m, [] => m
  | m, b :: bs => optFold optStep (optStep m b.image (attrLabel b)) bs

/-- The per-batch loss values of one epoch, each computed by the
criterion on the forward pass of the model as updated so far. -/
def batchLosses (forward : Model → Image → List Int) (criterion : List Int → Int → Int)
    (optStep : Model → Image → Int → Model) : Model → List Sample → List Int
  | _, [] => []
  | m, b :: bs =>
      criterion (forward m b.image) (attrLabel b) ::
        batchLosses forward criterion optStep (optStep m b.image (attrLabel b)) bs

/-- Every 100th element of a list of per-batch values, the batch
index counting from `i`. -/
def selectLogged : Nat → List Int → List Int
  | _, [] => []
  | i, x :: xs => (if (i + 1) % 100 = 0 then [x] else []) ++ selectLogged (i + 1) xs

/-- The steps at which a run over `n` batches starting at index `i`
logs progress. -/
def loggedStepsFrom : Nat → Nat → List Nat
  | _, 0 => []
  | i, n + 1 => (if (i + 1) % 100 = 0 then [i + 1] else []) ++ loggedStepsFrom (i + 1) n

/-- Whether a training event is the checkpoint save. -/
def TrainEvent.isCkpt : TrainEvent → Bool
  | .ckptSaved _ => true
  | _ => false

/-- Two samples that agree everywhere except possibly at attribute
index 20, the gender covariate. -/
def DifferOnlyInCov (s t : Sample) : Prop :=
  s.image = t.image ∧ s.attrs.length = t.attrs.length ∧
    ∀ j, j < s.attrs.length → j ≠ 20 → s.attrs.getD j 0 = t.attrs.getD j 0

end CelebA

/-! A first sanity theorem for the covariate remap. -/

namespace CelebA

/-- C2: On every covariate value v in the source encoding set, the
remap `(v+1)//2` used by both loops sends -1 to 0 and 1 to 1, by exact
integer floor division. -/
theorem cov_remap_exact (v : Int) (h : v = -1 ∨ v = 1) :
    (v = -1 → covRemap v = 0) ∧ (v = 1 → covRemap v = 1) := by
  rcases h with h | h <;> subst h
  · exact ⟨fun _ => by decide, fun h => absurd h (by decide)⟩
  · exact ⟨fun h => absurd h (by decide), fun _ => by decide⟩

/-- Witness: the remap theorem applied at the concrete covariate -1. -/
theorem cov_remap_exact_witness :
    ((-1 : Int) = -1 ∨ (-1 : Int) = 1) ∧
      (((-1 : Int) = -1 → covRemap (-1) = 0) ∧ ((-1 : Int) = 1 → covRemap (-1) = 1)) :=
  ⟨Or.inl rfl, cov_remap_exact (-1) (Or.inl rfl)⟩

/-- Closed form of the evaluation loop: starting from any accumulator,
it adds the match count to `correct`, the sample count to `total`,
appends the true labels and the argmax predictions, and records one
forward call per sample under the given autograd flag and mode. -/
lemma evalLoop_spec (f : Model → Image → List Int) (m : Model) (g : Bool)
    (samples : List Sample) :
    ∀ (st : EvalState) (calls : List FwdCall),
      evalLoop f m g (st, calls) samples =
        (⟨st.correct + matchCount f m samples,
          st.total + samples.length,
          st.y_true ++ samples.map attrLabel,
          st.y_pred ++ samples.map (predOf f m)⟩,
         calls ++ List.replicate samples.length ⟨g, m.training⟩) := by
  induction samples with
  | nil =>
      intro st calls
      simp [evalLoop, matchCount]
  | cons s ss ih =>
      intro st calls
      simp only [evalLoop, evalStep]
      rw [ih]
      simp only [matchCount, predOf, List.countP_cons, List.map_cons, List.length_cons,
        List.replicate_succ, List.append_assoc, List.singleton_append, Prod.mk.injEq,
        EvalState.mk.injEq, decide_eq_true_eq]
      and_intros <;> first | omega | rfl | trivial

/-- C3: over a non-empty validation split, the reported accuracy is
exactly (number of samples whose label equals the prediction) divided
by (number of samples processed), both natural numbers, and the
quotient lies in the interval from 0 to 1. -/
theorem eval_accuracy_spec (f : Model → Image → List Int) (m0 : Model)
    (samples : List Sample) (h : samples ≠ []) :
    (evaluate f m0 samples).state.correct = matchCount f { m0 with training := false } samples ∧
    (evaluate f m0 samples).state.total = samples.length ∧
    (evaluate f m0 samples).fileOut =
      [.accLine (((evaluate f m0 samples).state.correct : ℚ) /
        ((evaluate f m0 samples).state.total : ℚ))] ∧
    0 ≤ (((evaluate f m0 samples).state.correct : ℚ) /
        ((evaluate f m0 samples).state.total : ℚ)) ∧
    (((evaluate f m0 samples).state.correct : ℚ) /
        ((evaluate f m0 samples).state.total : ℚ)) ≤ 1 := by
  have e := evalLoop_spec f { m0 with training := false } false samples ⟨0, 0, [], []⟩ []
  have hev : evaluate f m0 samples =
      { model := { m0 with training := false }
        console := [.f1Line (f1_score (samples.map attrLabel)
            (samples.map (predOf f { m0 with training := false }))),
          .accLine ((matchCount f { m0 with training := false } samples : ℚ) /
            (samples.length : ℚ)),
          .f1Line (f1_score (samples.map attrLabel)
            (samples.map (predOf f { m0 with training := false })))]
        fileOut := [.accLine ((matchCount f { m0 with training := false } samples : ℚ) /
            (samples.length : ℚ))]
        calls := List.replicate samples.length ⟨false, false⟩
        state := ⟨matchCount f { m0 with training := false } samples, samples.length,
          samples.map attrLabel, samples.map (predOf f { m0 with training := false })⟩ } := by
    simp [evaluate, e]
  rw [hev]
  have hle : matchCount f { m0 with training := false } samples ≤ samples.length :=
    List.countP_le_length _
  have hpos : 0 < samples.length := List.length_pos.mpr h
  refine ⟨rfl, rfl, rfl, ?_, ?_⟩
  · positivity
  · rw [div_le_one (by exact_mod_cast hpos)]
    exact_mod_cast hle

/-- Witness for the accuracy theorem: one concrete sample whose label
matches the prediction. -/
theorem eval_accuracy_spec_witness :
    ([(⟨[0, 1], [0, 0, 1]⟩ : Sample)] ≠ []) ∧
    ((evaluate (fun _ outs => outs) ⟨[], [], true⟩ [⟨[0, 1], [0, 0, 1]⟩]).state.correct =
        matchCount (fun _ outs => outs) { Model.mk [] [] true with training := false }
          [⟨[0, 1], [0, 0, 1]⟩] ∧
      (evaluate (fun _ outs => outs) ⟨[], [], true⟩ [⟨[0, 1], [0, 0, 1]⟩]).state.total =
        [(⟨[0, 1], [0, 0, 1]⟩ : Sample)].length ∧
      (evaluate (fun _ outs => outs) ⟨[], [], true⟩ [⟨[0, 1], [0, 0, 1]⟩]).fileOut =
        [.accLine
          (((evaluate (fun _ outs => outs) ⟨[], [], true⟩ [⟨[0, 1], [0, 0, 1]⟩]).state.correct : ℚ) /
            ((evaluate (fun _ outs => outs) ⟨[], [], true⟩ [⟨[0, 1], [0, 0, 1]⟩]).state.total : ℚ))] ∧
      0 ≤ (((evaluate (fun _ outs => outs) ⟨[], [], true⟩ [⟨[0, 1], [0, 0, 1]⟩]).state.correct : ℚ) /
          ((evaluate (fun _ outs => outs) ⟨[], [], true⟩ [⟨[0, 1], [0, 0, 1]⟩]).state.total : ℚ)) ∧
      (((evaluate (fun _ outs => outs) ⟨[], [], true⟩ [⟨[0, 1], [0, 0, 1]⟩]).state.correct : ℚ) /
          ((evaluate (fun _ outs => outs) ⟨[], [], true⟩ [⟨[0, 1], [0, 0, 1]⟩]).state.total : ℚ)) ≤ 1) :=
  ⟨by simp, eval_accuracy_spec (fun _ outs => outs) ⟨[], [], true⟩ [⟨[0, 1], [0, 0, 1]⟩] (by simp)⟩

/-- C5: the evaluation loop accumulates exactly one true/predicted
pair per sample of the split, each prediction being the argmax of the
forward pass logits, and the reported F1 score is `f1_score` applied
to the two accumulated lists. -/
theorem eval_accumulates_pairs (f : Model → Image → List Int) (m0 : Model)
    (samples : List Sample) :
    (evaluate f m0 samples).state.y_true = samples.map attrLabel ∧
    (evaluate f m0 samples).state.y_pred =
      samples.map (predOf f { m0 with training := false }) ∧
    (evaluate f m0 samples).state.y_true.length = samples.length ∧
    (evaluate f m0 samples).state.y_pred.length = samples.length ∧
    (evaluate f m0 samples).console.head? =
      some (.f1Line (f1_score (evaluate f m0 samples).state.y_true
        (evaluate f m0 samples).state.y_pred)) := by
  have e := evalLoop_spec f { m0 with training := false } false samples ⟨0, 0, [], []⟩ []
  simp [evaluate, e]

/-- C8: evaluation leaves every model parameter unchanged, and every
forward call of the loop runs with gradient tracking disabled and the
model in eval mode. -/
theorem eval_nograd_preserves_params (f : Model → Image → List Int) (m0 : Model)
    (samples : List Sample) :
    (evaluate f m0 samples).model.paramsOf = m0.paramsOf ∧
    ((evaluate f m0 samples).calls.all fun c => !c.gradEnabled && !c.modeTraining) = true ∧
    (evaluate f m0 samples).calls.length = samples.length := by
  have e := evalLoop_spec f { m0 with training := false } false samples ⟨0, 0, [], []⟩ []
  refine ⟨rfl, ?_, ?_⟩
  · simp only [evaluate, e, List.all_eq_true]
    intro c hc
    rw [List.eq_of_mem_replicate hc]
    rfl
  · simp [evaluate, e]

/-- C1 (divergence witness): at a concrete one-sample run, the F1
line appears twice on the console (once from line 179 and once from
line 182, whose print is missing `file=f`), while the log file
receives only the accuracy line — the F1 score is never appended to
the log file. -/
theorem eval_f1_never_logged :
    (evaluate (fun _ outs => outs) ⟨[], [], true⟩ [⟨[0, 1], [0, 0, 1]⟩]).console =
      [.f1Line 1, .accLine 1, .f1Line 1] ∧
    (evaluate (fun _ outs => outs) ⟨[], [], true⟩ [⟨[0, 1], [0, 0, 1]⟩]).fileOut =
      [.accLine 1] := by
  have e := evalLoop_spec (fun _ outs => outs) ⟨[], [], false⟩ false
    [⟨[0, 1], [0, 0, 1]⟩] ⟨0, 0, [], []⟩ []
  constructor <;>
    simp [evaluate, e, matchCount, predOf, attrLabel, argmax, argmaxAux,
      f1_score, countTP, countFP, countFN, List.countP] <;>
    norm_num [List.countP.go, argmaxAux]

/-- C4: `initialize_model` succeeds whenever `classifier[6]` is a
linear layer, and the adapted model's new head is a fresh linear
layer whose in-feature count is the one read from the original head
and whose out-feature count is the configured class count; the
feature stack, the mode flag and every other classifier entry are
untouched. -/
theorem initialize_model_replaces_only_head (model : Model) (nc nf out : Nat) (w : List Int)
    (h : model.classifier.get? 6 = some (.linear nf out w)) :
    initialize_model model nc =
      some { model with classifier := model.classifier.set 6 (freshLinear nf nc) } ∧
    (model.classifier.set 6 (freshLinear nf nc)).get? 6 =
      some (.linear nf nc (List.replicate (nf * nc) 0)) ∧
    ({ model with classifier := model.classifier.set 6 (freshLinear nf nc) } : Model).features =
      model.features ∧
    ({ model with classifier := model.classifier.set 6 (freshLinear nf nc) } : Model).training =
      model.training ∧
    ∀ j, j ≠ 6 → (model.classifier.set 6 (freshLinear nf nc)).get? j = model.classifier.get? j := by
  have h6 : 6 < model.classifier.length := (List.get?_eq_some.mp h).1
  have h' : model.classifier[6]? = some (Layer.linear nf out w) := by
    rw [← List.get?_eq_getElem?]; exact h
  refine ⟨?_, ?_, rfl, rfl, ?_⟩
  · simp [initialize_model, h']
  · rw [List.get?_set_eq_of_lt _ h6]; rfl
  · intro j hj
    exact List.get?_set_ne _ _ (fun e => hj e.symm)

/-- Witness: a concrete seven-entry classifier whose final entry is a
trained linear layer with 3 in-features. -/
theorem initialize_model_replaces_only_head_witness :
    ((Model.mk [.other [5]]
        [.other [], .other [], .other [], .other [], .other [], .other [],
          .linear 3 7 [1, 2]] true).classifier.get? 6 = some (.linear 3 7 [1, 2])) ∧
    (initialize_model (Model.mk [.other [5]]
        [.other [], .other [], .other [], .other [], .other [], .other [],
          .linear 3 7 [1, 2]] true) 2 =
      some { Model.mk [.other [5]]
          [.other [], .other [], .other [], .other [], .other [], .other [],
            .linear 3 7 [1, 2]] true with
        classifier := (Model.mk [.other [5]]
          [.other [], .other [], .other [], .other [], .other [], .other [],
            .linear 3 7 [1, 2]] true).classifier.set 6 (freshLinear 3 2) } ∧
      ((Model.mk [.other [5]]
          [.other [], .other [], .other [], .other [], .other [], .other [],
            .linear 3 7 [1, 2]] true).classifier.set 6 (freshLinear 3 2)).get? 6 =
        some (.linear 3 2 (List.replicate (3 * 2) 0)) ∧
      ({ Model.mk [.other [5]]
          [.other [], .other [], .other [], .other [], .other [], .other [],
            .linear 3 7 [1, 2]] true with
        classifier := (Model.mk [.other [5]]
          [.other [], .other [], .other [], .other [], .other [], .other [],
            .linear 3 7 [1, 2]] true).classifier.set 6 (freshLinear 3 2) } : Model).features =
        (Model.mk [.other [5]]
          [.other [], .other [], .other [], .other [], .other [], .other [],
            .linear 3 7 [1, 2]] true).features ∧
      ({ Model.mk [.other [5]]
          [.other [], .other [], .other [], .other [], .other [], .other [],
            .linear 3 7 [1, 2]] true with
        classifier := (Model.mk [.other [5]]
          [.other [], .other [], .other [], .other [], .other [], .other [],
            .linear 3 7 [1, 2]] true).classifier.set 6 (freshLinear 3 2) } : Model).training =
        (Model.mk [.other [5]]
          [.other [], .other [], .other [], .other [], .other [], .other [],
            .linear 3 7 [1, 2]] true).training ∧
      ∀ j, j ≠ 6 →
        ((Model.mk [.other [5]]
          [.other [], .other [], .other [], .other [], .other [], .other [],
            .linear 3 7 [1, 2]] true).classifier.set 6 (freshLinear 3 2)).get? j =
          (Model.mk [.other [5]]
          [.other [], .other [], .other [], .other [], .other [], .other [],
            .linear 3 7 [1, 2]] true).classifier.get? j) :=
  ⟨rfl, initialize_model_replaces_only_head _ 2 3 7 [1, 2] rfl⟩

/-- The recursively defined logged steps are the successors of the
batch indices that are divisible by 100. -/
lemma loggedStepsFrom_eq (n : Nat) :
    ∀ i, loggedStepsFrom i n =
      ((List.range n).map fun k => i + k + 1).filter fun s => decide (s % 100 = 0) := by
  induction n with
  | zero => intro i; simp [loggedStepsFrom]
  | succ n ih =>
      intro i
      rw [List.range_succ_eq_map, List.map_cons, List.map_map]
      have hc : ((fun k => i + k + 1) ∘ Nat.succ) = fun k => (i + 1) + k + 1 := by
        funext k; simp [Function.comp]; omega
      rw [hc, List.filter_cons]
      by_cases h100 : (i + 0 + 1) % 100 = 0
      · simp only [loggedStepsFrom]
        rw [ih (i + 1)]
        have : (i + 1) % 100 = 0 := by omega
        simp [this]
      · simp only [loggedStepsFrom]
        rw [ih (i + 1)]
        have : ¬ (i + 1) % 100 = 0 := by omega
        simp [this]

/-- Each logged loss is paired with exactly one logged step. -/
lemma selectLogged_length (l : List Int) :
    ∀ i, (selectLogged i l).length = (loggedStepsFrom i l.length).length := by
  induction l with
  | nil => intro i; simp [selectLogged, loggedStepsFrom]
  | cons x xs ih =>
      intro i
      simp only [selectLogged, List.length_cons, loggedStepsFrom, List.length_append, ih (i + 1)]
      by_cases h100 : (i + 1) % 100 = 0 <;> simp [h100]

/-- One loss value is computed per batch. -/
lemma batchLosses_length (f : Model → Image → List Int) (c : List Int → Int → Int)
    (o : Model → Image → Int → Model) (m : Model) (bs : List Sample) :
    (batchLosses f c o m bs).length = bs.length := by
  induction bs generalizing m with
  | nil => rfl
  | cons b bs ih => simp [batchLosses, ih]

/-- Closed form of the batch loop of one epoch, from an arbitrary
start index and state: the model is the optimizer fold, the histories
gain exactly the every-100th steps and the corresponding per-batch
losses, and exactly one console line and one file line are appended
per logged (step, loss) pair. -/
lemma epochLoop_spec (f : Model → Image → List Int) (c : List Int → Int → Int)
    (o : Model → Image → Int → Model) (nE ns ep : Nat) (bs : List Sample) :
    ∀ (i0 : Nat) (st : EpochState),
      epochLoop f c o nE ns ep i0 st bs =
        ⟨optFold o st.model bs,
         st.loss_hist ++ selectLogged i0 (batchLosses f c o st.model bs),
         st.step_hist ++ loggedStepsFrom i0 bs.length,
         st.events ++
           ((loggedStepsFrom i0 bs.length).zip
               (selectLogged i0 (batchLosses f c o st.model bs))).flatMap fun p =>
             [.progressConsole (ep + 1) nE p.1 ns p.2,
              .progressFile (ep + 1) nE p.1 ns p.2]⟩ := by
  induction bs with
  | nil =>
      intro i0 st
      simp [epochLoop, optFold, batchLosses, selectLogged, loggedStepsFrom]
  | cons b bs ih =>
      intro i0 st
      simp only [epochLoop, trainBatch]
      by_cases h100 : (i0 + 1) % 100 = 0
      · rw [if_pos h100, ih (i0 + 1)]
        simp [optFold, batchLosses, selectLogged, loggedStepsFrom, h100, List.zip_cons_cons]
      · rw [if_neg h100, ih (i0 + 1)]
        simp [optFold, batchLosses, selectLogged, loggedStepsFrom, h100]

/-- C6: within one epoch, exactly the batches whose 1-based step is
divisible by 100 produce a progress line (with the epoch number, the
step and that batch's loss) on the console and in the log file, and
exactly those (step, loss) pairs make up the per-epoch histories
handed to the plotter; no other batch logs or records anything. -/
theorem train_logs_every_100th_batch (f : Model → Image → List Int)
    (c : List Int → Int → Int) (o : Model → Image → Int → Model)
    (numEpochs epoch : Nat) (m : Model) (evs : List TrainEvent) (batches : List Sample) :
    (runEpoch f c o numEpochs epoch m evs batches).2 =
      evs ++
        (((((List.range batches.length).map fun k => k + 1).filter
              fun s => decide (s % 100 = 0)).zip
            (selectLogged 0 (batchLosses f c o m batches))).flatMap fun p =>
          [.progressConsole (epoch + 1) numEpochs p.1 batches.length p.2,
           .progressFile (epoch + 1) numEpochs p.1 batches.length p.2]) ++
        [.plotSaved epoch
          ((((List.range batches.length).map fun k => k + 1).filter
            fun s => decide (s % 100 = 0)))
          (selectLogged 0 (batchLosses f c o m batches))] ∧
    (selectLogged 0 (batchLosses f c o m batches)).length =
      (((List.range batches.length).map fun k => k + 1).filter
        fun s => decide (s % 100 = 0)).length := by
  have hsteps : loggedStepsFrom 0 batches.length =
      ((List.range batches.length).map fun k => k + 1).filter fun s => decide (s % 100 = 0) := by
    have h0 : (fun k : Nat => 0 + k + 1) = fun k : Nat => k + 1 := by funext k; omega
    rw [loggedStepsFrom_eq, h0]
  have e := epochLoop_spec f c o numEpochs batches.length epoch batches 0 ⟨m, [], [], evs⟩
  constructor
  · simp only [runEpoch, e]
    simp [hsteps, List.append_assoc]
  · rw [← hsteps, selectLogged_length, batchLosses_length]

/-- The epoch loop never emits a checkpoint event: it only appends
progress lines and per-epoch plot saves. -/
lemma epochsLoop_filter_ckpt (f : Model → Image → List Int) (c : List Int → Int → Int)
    (o : Model → Image → Int → Model) (nE : Nat) (bs : List Sample) :
    ∀ (n : Nat) (m : Model) (evs : List TrainEvent),
      ((epochsLoop f c o nE bs n m evs).2).filter TrainEvent.isCkpt =
        evs.filter TrainEvent.isCkpt := by
  intro n
  induction n with
  | zero => intro m evs; rfl
  | succ n ih =>
      intro m evs
      simp only [epochsLoop]
      rw [ih]
      have e := epochLoop_spec f c o nE bs.length (nE - (n + 1)) bs 0 ⟨m, [], [], evs⟩
      simp only [runEpoch, e]
      rw [List.filter_append, List.filter_append]
      have h1 : ((((loggedStepsFrom 0 bs.length).zip
          (selectLogged 0 (batchLosses f c o m bs))).flatMap fun p =>
            [TrainEvent.progressConsole (nE - (n + 1) + 1) nE p.1 bs.length p.2,
             TrainEvent.progressFile (nE - (n + 1) + 1) nE p.1 bs.length p.2]).filter
          TrainEvent.isCkpt) = [] := by
        rw [List.filter_eq_nil_iff]
        intro a ha
        obtain ⟨p, _, hmem⟩ := List.mem_flatMap.mp ha
        simp only [List.mem_cons, List.mem_singleton, List.not_mem_nil, or_false] at hmem
        rcases hmem with h | h <;> subst h <;> simp [TrainEvent.isCkpt]
      simp [h1, TrainEvent.isCkpt]

/-- C7: a run of `train` emits exactly one checkpoint save, named
after the experiment, and it is the very last event of the run —
after every epoch has finished. -/
theorem train_saves_checkpoint_once_at_end (f : Model → Image → List Int)
    (c : List Int → Int → Int) (o : Model → Image → Int → Model)
    (m0 : Model) (batches : List Sample) (num_epochs : Nat) :
    ((train f c o m0 batches num_epochs).2).filter TrainEvent.isCkpt =
      [.ckptSaved (experiment_name ++ ".ckpt")] ∧
    ((train f c o m0 batches num_epochs).2).getLast? =
      some (.ckptSaved (experiment_name ++ ".ckpt")) := by
  constructor
  · simp only [train]
    rw [List.filter_append, epochsLoop_filter_ckpt]
    simp [TrainEvent.isCkpt]
  · simp only [train]
    exact List.getLast?_concat _

/-- Samples differing only in the covariate have the same target
label, which sits at index 2. -/
lemma differOnly_attrLabel {s t : Sample} (h : DifferOnlyInCov s t) :
    attrLabel s = attrLabel t := by
  obtain ⟨-, hlen, hj⟩ := h
  by_cases h2 : 2 < s.attrs.length
  · exact hj 2 h2 (by omega)
  · unfold attrLabel
    rw [List.getD_eq_default _ _ (by omega : s.attrs.length ≤ 2),
      List.getD_eq_default _ _ (by omega : t.attrs.length ≤ 2)]

/-- The label and prediction maps and the match count ignore the
covariate entry. -/
lemma differOnly_maps (f : Model → Image → List Int) (m : Model) :
    ∀ {ss tt : List Sample}, List.Forall₂ DifferOnlyInCov ss tt →
      ss.map attrLabel = tt.map attrLabel ∧
      ss.map (predOf f m) = tt.map (predOf f m) ∧
      matchCount f m ss = matchCount f m tt := by
  intro ss tt h
  induction h with
  | nil => exact ⟨rfl, rfl, rfl⟩
  | @cons a b l1 l2 h1 h2 ih =>
      have hlab := differOnly_attrLabel h1
      have hpred : predOf f m a = predOf f m b := by
        unfold predOf
        rw [h1.1]
      have ih3 : List.countP (fun s => decide (attrLabel s = predOf f m s)) l1 =
          List.countP (fun s => decide (attrLabel s = predOf f m s)) l2 := ih.2.2
      refine ⟨?_, ?_, ?_⟩ <;>
        simp [matchCount, List.countP_cons, ih.1, ih.2.1, ih3, hlab, hpred]

/-- The optimizer fold ignores the covariate entry. -/
lemma optFold_congr (o : Model → Image → Int → Model) :
    ∀ {ss tt : List Sample}, List.Forall₂ DifferOnlyInCov ss tt →
      ∀ m, optFold o m ss = optFold o m tt := by
  intro ss tt h
  induction h with
  | nil => intro m; rfl
  | @cons a b l1 l2 h1 h2 ih =>
      intro m
      simp only [optFold, h1.1, differOnly_attrLabel h1]
      exact ih _

/-- The per-batch losses ignore the covariate entry. -/
lemma batchLosses_congr (f : Model → Image → List Int) (c : List Int → Int → Int)
    (o : Model → Image → Int → Model) :
    ∀ {ss tt : List Sample}, List.Forall₂ DifferOnlyInCov ss tt →
      ∀ m, batchLosses f c o m ss = batchLosses f c o m tt := by
  intro ss tt h
  induction h with
  | nil => intro m; rfl
  | @cons a b l1 l2 h1 h2 ih =>
      intro m
      simp only [batchLosses, h1.1, differOnly_attrLabel h1]
      rw [ih]

/-- The epoch loop ignores the covariate entry. -/
lemma epochsLoop_congr (f : Model → Image → List Int) (c : List Int → Int → Int)
    (o : Model → Image → Int → Model) (nE : Nat) {bs1 bs2 : List Sample}
    (h : List.Forall₂ DifferOnlyInCov bs1 bs2) :
    ∀ (n : Nat) (m : Model) (evs : List TrainEvent),
      epochsLoop f c o nE bs1 n m evs = epochsLoop f c o nE bs2 n m evs := by
  intro n
  induction n with
  | zero => intro m evs; rfl
  | succ n ih =>
      intro m evs
      simp only [epochsLoop]
      have hr : runEpoch f c o nE (nE - (n + 1)) m evs bs1 =
          runEpoch f c o nE (nE - (n + 1)) m evs bs2 := by
        have e1 := epochLoop_spec f c o nE bs1.length (nE - (n + 1)) bs1 0 ⟨m, [], [], evs⟩
        have e2 := epochLoop_spec f c o nE bs2.length (nE - (n + 1)) bs2 0 ⟨m, [], [], evs⟩
        simp only [runEpoch, e1, e2]
        rw [optFold_congr o h m, batchLosses_congr f c o h m, h.length_eq]
      rw [hr]
      exact ih _ _

/-- C9: the gender covariate has no influence on the program: two
runs whose inputs differ only in attribute index 20 produce identical
evaluation results (predictions, accuracy, F1, console and file
output, forward-call trace) and identical training runs (model,
losses, logged lines, plots, checkpoint). -/
theorem covariate_has_no_influence (f : Model → Image → List Int)
    (c : List Int → Int → Int) (o : Model → Image → Int → Model)
    (m0 : Model) (num_epochs : Nat) (bs1 bs2 : List Sample)
    (h : List.Forall₂ DifferOnlyInCov bs1 bs2) :
    evaluate f m0 bs1 = evaluate f m0 bs2 ∧
    train f c o m0 bs1 num_epochs = train f c o m0 bs2 num_epochs := by
  constructor
  · have e1 := evalLoop_spec f { m0 with training := false } false bs1 ⟨0, 0, [], []⟩ []
    have e2 := evalLoop_spec f { m0 with training := false } false bs2 ⟨0, 0, [], []⟩ []
    obtain ⟨hm1, hm2, hm3⟩ := differOnly_maps f { m0 with training := false } h
    have hlen := h.length_eq
    simp [evaluate, e1, e2, hm1, hm2, hm3, hlen]
  · simp only [train]
    rw [epochsLoop_congr f c o num_epochs h]

/-- Witness: two one-sample runs whose attribute vectors differ only
at index 20 (covariate -1 against 1). -/
theorem covariate_has_no_influence_witness :
    List.Forall₂ DifferOnlyInCov
      [⟨[5, 2], List.replicate 20 0 ++ [-1]⟩] [⟨[5, 2], List.replicate 20 0 ++ [1]⟩] ∧
    (evaluate (fun _ outs => outs) ⟨[], [], true⟩
        [⟨[5, 2], List.replicate 20 0 ++ [-1]⟩] =
      evaluate (fun _ outs => outs) ⟨[], [], true⟩
        [⟨[5, 2], List.replicate 20 0 ++ [1]⟩] ∧
      train (fun _ outs => outs) (fun outs l => outs.headD 0 + l) (fun m _ _ => m)
        ⟨[], [], true⟩ [⟨[5, 2], List.replicate 20 0 ++ [-1]⟩] 1 =
      train (fun _ outs => outs) (fun outs l => outs.headD 0 + l) (fun m _ _ => m)
        ⟨[], [], true⟩ [⟨[5, 2], List.replicate 20 0 ++ [1]⟩] 1) :=
  have hp : List.Forall₂ DifferOnlyInCov
      [⟨[5, 2], List.replicate 20 0 ++ [-1]⟩] [⟨[5, 2], List.replicate 20 0 ++ [1]⟩] :=
    List.Forall₂.cons
      (by unfold DifferOnlyInCov; refine ⟨rfl, rfl, by decide⟩) List.Forall₂.nil
  ⟨hp, covariate_has_no_influence (fun _ outs => outs) (fun outs l => outs.headD 0 + l)
    (fun m _ _ => m) ⟨[], [], true⟩ 1 _ _ hp⟩

/-- C10: `main` as written never trains: it adapts the freshly loaded
backbone (whose new head is the fresh, untrained linear layer with
the preserved in-feature count and 2 classes) and runs only the
evaluation loop, so the run's filesystem writes are exactly one
append to the experiment log and in particular no checkpoint file is
ever written. -/
theorem main_runs_only_evaluation (f : Model → Image → List Int) (vgg : Model)
    (valS : List Sample) (nf out : Nat) (w : List Int)
    (h : vgg.classifier.get? 6 = some (.linear nf out w)) :
    ∃ r : MainResult, main f vgg valS = some r ∧
      r.modelUsed.classifier.get? 6 = some (.linear nf 2 (List.replicate (nf * 2) 0)) ∧
      r.modelUsed.features = vgg.features ∧
      r.writes = [.appendTxt (experiment_name ++ ".txt")] ∧
      ∀ name, FileWrite.saveCkpt name ∉ r.writes := by
  have h6 : 6 < vgg.classifier.length := (List.get?_eq_some.mp h).1
  have h' : vgg.classifier[6]? = some (Layer.linear nf out w) := by
    rw [← List.get?_eq_getElem?]; exact h
  have hmain : main f vgg valS = some
      { modelUsed := { vgg with classifier := vgg.classifier.set 6 (freshLinear nf 2) }
        evalRes := evaluate f { vgg with classifier := vgg.classifier.set 6 (freshLinear nf 2) } valS
        writes := [.appendTxt (experiment_name ++ ".txt")] } := by
    simp [main, initialize_model, h', evalWrites, evaluate]
  refine ⟨_, hmain, ?_, rfl, rfl, ?_⟩
  · rw [List.get?_set_eq_of_lt _ h6]; rfl
  · intro nm hmem
    simp at hmem

/-- Witness: `main` on a concrete backbone with a seven-entry
classifier and a one-sample validation split. -/
theorem main_runs_only_evaluation_witness :
    ((Model.mk [.other [5]]
        [.other [], .other [], .other [], .other [], .other [], .other [],
          .linear 3 7 [1, 2]] true).classifier.get? 6 = some (.linear 3 7 [1, 2])) ∧
    (∃ r : MainResult,
      main (fun _ outs => outs) (Model.mk [.other [5]]
        [.other [], .other [], .other [], .other [], .other [], .other [],
          .linear 3 7 [1, 2]] true) [⟨[0, 1], [0, 0, 1]⟩] = some r ∧
      r.modelUsed.classifier.get? 6 = some (.linear 3 2 (List.replicate (3 * 2) 0)) ∧
      r.modelUsed.features = (Model.mk [.other [5]]
        [.other [], .other [], .other [], .other [], .other [], .other [],
          .linear 3 7 [1, 2]] true).features ∧
      r.writes = [.appendTxt (experiment_name ++ ".txt")] ∧
      ∀ name, FileWrite.saveCkpt name ∉ r.writes) :=
  ⟨rfl, main_runs_only_evaluation (fun _ outs => outs) _ [⟨[0, 1], [0, 0, 1]⟩] 3 7 [1, 2] rfl⟩

end CelebA
